import Mathlib

/-!
Verification of the zone-occupancy pipeline of the CCTV relay worker.

The development shallowly embeds the Python sources:
* `src/workers/detection_worker.py` — per-zone occupancy state machine,
  abandoned-item timer, and status-change event derivation;
* `src/core/roi_matcher.py` — IoU computation, ray-casting polygon
  containment, and detection-to-zone matching;
* `src/database/seat_repository.py` — tiered cache fallback for zone lists;
* `src/utils/detection_logger.py` — batched/immediate event logging.

Statuses are modelled as the strings the Python code uses; machine floats
carrying exact small integers and exact division results are modelled as
rationals; Python exceptions and unbound-variable reads are modelled by
`Option`.
-/

namespace AndingCCTV

/-! ## Occupancy state machine (`detection_worker.py`, `ChannelWorker.process_frame`) -/

/-- Embeds the `event_type_map` dictionary lookup (with default
`'status_change'`) at lines 271-280 of `detection_worker.py`. -/
def event_type_map (p n : String) : String :=
  if p = "empty" ∧ n = "occupied" then "person_enter"
  else if p = "occupied" ∧ n = "empty" then "person_leave"
  else if p = "empty" ∧ n = "abandoned" then "abandoned_detected"
  else if p = "occupied" ∧ n = "abandoned" then "abandoned_detected"
  else if p = "abandoned" ∧ n = "occupied" then "person_enter"
  else if p = "abandoned" ∧ n = "empty" then "item_removed"
  else "status_change"

/-- An event is emitted exactly when the new status differs from the previous
one (`if new_status != prev_status:` at line 270 of `detection_worker.py`). -/
def emittedEvent (prev new : String) : Option String :=
  if new ≠ prev then some (event_type_map prev new) else none

/-- Embeds lines 182-221 of `detection_worker.py`: the matcher status is
`'occupied'` iff a person is detected; without a person but with an object the
abandoned timer is incremented by the snapshot interval and the status becomes
`'abandoned'` once the timer reaches 600 seconds; otherwise the timer resets
to 0.  Returns the new status together with the new timer value. -/
def processSeatStatus (personDetected objectDetected : Bool)
    (timer interval : ℚ) : String × ℚ :=
  let currentStatus := if personDetected then "occupied" else "empty"
  if !personDetected && objectDetected then
    let t := timer + interval
    ((if 600 ≤ t then "abandoned" else currentStatus), t)
  else
    (currentStatus, 0)

/-- One per-seat cycle of `process_frame`: compute the new status and timer,
and emit a status-change event when the status changed. -/
def cycleStep (prev : String) (timer : ℚ) (personDetected objectDetected : Bool)
    (interval : ℚ) : String × ℚ × Option String :=
  let r := processSeatStatus personDetected objectDetected timer interval
  (r.1, r.2, emittedEvent prev r.1)

/-- Iterate `cycleStep` for `n` cycles with a fixed observation, threading the
previous status and the abandoned timer; records each cycle's new status and
emitted event. -/
def iterateCycles (personDetected objectDetected : Bool) (interval : ℚ) :
    String → ℚ → ℕ → List (String × Option String)
  | _, _, 0 => []
  | prev, timer, Nat.succ n =>
    let r := cycleStep prev timer personDetected objectDetected interval
    (r.1, r.2.2) :: iterateCycles personDetected objectDetected interval r.1 r.2.1 n

/-- Number of adjacent status changes in a status trace starting from a given
previous status. -/
def countChanges : String → List String → ℕ
  | _, [] => 0
  | p, s :: rest => (if s ≠ p then 1 else 0) + countChanges s rest

/-- Status observed at cycle `k` (0-indexed) of a run with no person, an
object present, interval 3, and initial timer `t`: abandoned exactly when the
accumulated timer `t + 3·(k+1)` has reached 600. -/
theorem iterate_status_getD (n : ℕ) :
    ∀ (t : ℚ) (prev : String) (k : ℕ), k < n →
      (((iterateCycles false true 3 prev t n).map Prod.fst).getD k "") =
        if 600 ≤ t + 3 * ((k : ℚ) + 1) then "abandoned" else "empty" := by
  induction n with
  | zero => intro t prev k hk; exact absurd hk (Nat.not_lt_zero k)
  | succ n ih =>
    intro t prev k hk
    match k with
    | 0 =>
      simp only [iterateCycles, cycleStep, processSeatStatus, Bool.not_false,
        Bool.true_and, if_true, List.map_cons, List.getD_cons_zero]
      norm_num
    | Nat.succ k =>
      have hk' : k < n := Nat.lt_of_succ_lt_succ hk
      simp only [iterateCycles, cycleStep, processSeatStatus, Bool.not_false,
        Bool.true_and, if_true, List.map_cons, List.getD_cons_succ]
      rw [ih (t + 3) _ k hk']
      have harith : t + 3 + 3 * ((k : ℚ) + 1) = t + 3 * (((k : ℕ) + 1 : ℕ) + 1) := by
        push_cast; ring
      rw [harith]

/-- C2: a detected person resets the abandoned timer to 0; no person with an
object increments the timer by the interval and yields status `abandoned`
exactly when the accumulated value reaches 600, else `empty`; neither person
nor object resets the timer and yields `empty`.  With a 3-second interval and
timer starting at 0, the k-th consecutive object-only cycle (1-indexed) is
`abandoned` exactly from cycle 200 on. -/
theorem abandoned_timer_spec :
    (∀ (o : Bool) (timer interval : ℚ),
        processSeatStatus true o timer interval = ("occupied", 0)) ∧
    (∀ timer interval : ℚ,
        processSeatStatus false true timer interval =
          ((if 600 ≤ timer + interval then "abandoned" else "empty"), timer + interval)) ∧
    (∀ timer interval : ℚ,
        processSeatStatus false false timer interval = ("empty", 0)) ∧
    (∀ (prev : String) (n k : ℕ), k < n →
        (((iterateCycles false true 3 prev 0 n).map Prod.fst).getD k "") =
          if 200 ≤ k + 1 then "abandoned" else "empty") := by
  refine ⟨?_, ?_, ?_, ?_⟩
  · intro o timer interval; simp [processSeatStatus]
  · intro timer interval; simp [processSeatStatus]
  · intro timer interval; simp [processSeatStatus]
  · intro prev n k hk
    rw [iterate_status_getD n 0 prev k hk]
    have h : (600 : ℚ) ≤ 0 + 3 * ((k : ℚ) + 1) ↔ 200 ≤ k + 1 := by
      rw [← Nat.cast_le (α := ℚ)]
      push_cast
      constructor <;> intro h <;> linarith
    simp only [h]

/-- Witness for `abandoned_timer_spec` at concrete inputs. -/
theorem abandoned_timer_spec_witness :
    processSeatStatus true false 7 3 = ("occupied", 0) ∧
    (((iterateCycles false true 3 "empty" 0 200).map Prod.fst).getD 199 "") = "abandoned" := by
  refine ⟨abandoned_timer_spec.1 false 7 3, ?_⟩
  rw [abandoned_timer_spec.2.2.2 "empty" 200 199 (by norm_num)]
  decide

/-- C1: whenever the new status differs from the previous one, the emitted
event type follows the exact transition table; every differing pair outside
the table yields the defensive `status_change`. -/
theorem event_type_table_spec :
    emittedEvent "empty" "occupied" = some "person_enter" ∧
    emittedEvent "occupied" "empty" = some "person_leave" ∧
    emittedEvent "empty" "abandoned" = some "abandoned_detected" ∧
    emittedEvent "occupied" "abandoned" = some "abandoned_detected" ∧
    emittedEvent "abandoned" "occupied" = some "person_enter" ∧
    emittedEvent "abandoned" "empty" = some "item_removed" ∧
    (∀ p n : String, p ≠ n →
      (p, n) ∉ [("empty", "occupied"), ("occupied", "empty"), ("empty", "abandoned"),
        ("occupied", "abandoned"), ("abandoned", "occupied"), ("abandoned", "empty")] →
      emittedEvent p n = some "status_change") := by
  refine ⟨by decide, by decide, by decide, by decide, by decide, by decide, ?_⟩
  intro p n hpn hmem
  simp only [List.mem_cons, List.not_mem_nil, or_false, not_or, Prod.mk.injEq,
    not_and] at hmem
  obtain ⟨h1, h2, h3, h4, h5, h6⟩ := hmem
  unfold emittedEvent event_type_map
  rw [if_pos (Ne.symm hpn)]
  congr 1
  split_ifs with g1 g2 g3 g4 g5 g6
  · exact absurd g1.2 (h1 g1.1)
  · exact absurd g2.2 (h2 g2.1)
  · exact absurd g3.2 (h3 g3.1)
  · exact absurd g4.2 (h4 g4.1)
  · exact absurd g5.2 (h5 g5.1)
  · exact absurd g6.2 (h6 g6.1)
  · rfl

/-- Witness for `event_type_table_spec` at a concrete undocumented pair. -/
theorem event_type_table_spec_witness :
    emittedEvent "occupied" "unknown" = some "status_change" :=
  event_type_table_spec.2.2.2.2.2.2 "occupied" "unknown" (by decide) (by decide)

/-- C7: no event is emitted in a cycle whose new status equals the previous
status, and over any run with a fixed observation the number of emitted
events equals the number of actual status transitions in the trace. -/
theorem state_machine_idempotent :
    (∀ (prev : String) (timer : ℚ) (p o : Bool) (interval : ℚ),
        (cycleStep prev timer p o interval).1 = prev →
        (cycleStep prev timer p o interval).2.2 = none) ∧
    (∀ (p o : Bool) (interval : ℚ) (prev : String) (timer : ℚ) (n : ℕ),
        ((iterateCycles p o interval prev timer n).map Prod.snd).countP Option.isSome =
          countChanges prev ((iterateCycles p o interval prev timer n).map Prod.fst)) := by
  constructor
  · intro prev timer p o interval h
    simp only [cycleStep] at h ⊢
    simp [emittedEvent, h]
  · intro p o interval prev timer n
    induction n generalizing prev timer with
    | zero => simp [iterateCycles, countChanges]
    | succ n ih =>
      simp only [iterateCycles, cycleStep, List.map_cons, List.countP_cons, countChanges]
      by_cases h : (processSeatStatus p o timer interval).1 ≠ prev
      · simp [emittedEvent, h, ih, Nat.add_comm]
      · simp [emittedEvent, h, ih, Nat.add_comm]

/-- Witness for `state_machine_idempotent` at a concrete input. -/
theorem state_machine_idempotent_witness :
    (cycleStep "empty" 0 false false 3).2.2 = none :=
  state_machine_idempotent.1 "empty" 0 false false 3 (by simp [cycleStep, processSeatStatus])

/-! ## Geometry (`roi_matcher.py`) -/

/-- An axis-aligned box `(x1, y1, x2, y2)`; Python floats carrying exact
values are modelled as rationals. -/
structure Box where
  x1 : ℚ
  y1 : ℚ
  x2 : ℚ
  y2 : ℚ
deriving DecidableEq

/-- A YOLO person detection `(x1, y1, x2, y2, confidence)`. -/
structure Detection where
  x1 : ℚ
  y1 : ℚ
  x2 : ℚ
  y2 : ℚ
  conf : ℚ
deriving DecidableEq

/-- The slice `person_box[:4]`. -/
def Detection.bbox (d : Detection) : Box := ⟨d.x1, d.y1, d.x2, d.y2⟩

/-- The person's bottom-center point `((x1 + x2) / 2, y2)` (line 188 of
`roi_matcher.py`). -/
def Detection.bottomCenter (d : Detection) : ℚ × ℚ := ((d.x1 + d.x2) / 2, d.y2)

/-- Signed box area `(x2 - x1) * (y2 - y1)` as computed at lines 120-121 of
`roi_matcher.py`. -/
def boxArea (b : Box) : ℚ := (b.x2 - b.x1) * (b.y2 - b.y1)

/-- Membership of a point in the closed box. -/
def inBox (b : Box) (p : ℚ × ℚ) : Prop :=
  b.x1 ≤ p.1 ∧ p.1 ≤ b.x2 ∧ b.y1 ≤ p.2 ∧ p.2 ≤ b.y2

/-- Embeds `ROIMatcher.calculate_iou` (lines 93-127 of `roi_matcher.py`). -/
def calculate_iou (box1 box2 : Box) : ℚ :=
  let x1i := max box1.x1 box2.x1
  let y1i := max box1.y1 box2.y1
  let x2i := min box1.x2 box2.x2
  let y2i := min box1.y2 box2.y2
  if x2i < x1i ∨ y2i < y1i then 0
  else
    let intersection := (x2i - x1i) * (y2i - y1i)
    let union := boxArea box1 + boxArea box2 - intersection
    if union = 0 then 0
    else intersection / union

/-- One pass of the body `if p1x == p2x or x <= xinters: inside = not inside`
(line 152 of `roi_matcher.py`).  `xinters` is `none` while the Python local
variable is still unassigned; reading it then is an `UnboundLocalError`,
modelled as `none`. -/
def pipFlip (x p1x p2x : ℚ) (inside : Bool) (xinters : Option ℚ) : Option Bool :=
  if p1x = p2x then some (!inside)
  else
    match xinters with
    | none => none
    | some xi => some (if x ≤ xi then !inside else inside)

/-- Embeds the ray-casting loop of `ROIMatcher.point_in_polygon` (lines
144-154 of `roi_matcher.py`).  The current edge start is `p1`; `edges` lists
the successive edge endpoints `polygon[i % n]` for `i = 1..n`.  Division by a
zero denominator (a Python `ZeroDivisionError`) yields `none`; both failure
branches are proven unreachable in `point_in_polygon_total`. -/
def pipLoop (x y : ℚ) : ℚ × ℚ → Bool → Option ℚ → List (ℚ × ℚ) → Option Bool
  | _, inside, _, [] => some inside
  | (p1x, p1y), inside, xinters, (p2x, p2y) :: rest =>
    if min p1y p2y < y ∧ y ≤ max p1y p2y ∧ x ≤ max p1x p2x then
      if p1y ≠ p2y then
        if p2y - p1y = 0 then none
        else
          let xi := (y - p1y) * (p2x - p1x) / (p2y - p1y) + p1x
          match pipFlip x p1x p2x inside (some xi) with
          | none => none
          | some inside' => pipLoop x y (p2x, p2y) inside' (some xi) rest
      else
        match pipFlip x p1x p2x inside xinters with
        | none => none
        | some inside' => pipLoop x y (p2x, p2y) inside' xinters rest
    else
      pipLoop x y (p2x, p2y) inside xinters rest

/-- Embeds `ROIMatcher.point_in_polygon` (lines 129-156 of `roi_matcher.py`).
An empty polygon makes `polygon[0]` raise `IndexError`, modelled as `none`. -/
def point_in_polygon (point : ℚ × ℚ) (polygon : List (ℚ × ℚ)) : Option Bool :=
  match polygon with
  | [] => none
  | p0 :: rest => pipLoop point.1 point.2 p0 false none (rest ++ [p0])

/-! ## Detection-to-zone matching (`ROIMatcher.check_occupancy`) -/

/-- The ROI payload of a seat entry: `seat['roi']` interpreted according to
`seat.get('type', 'rectangle')`. -/
inductive SeatROI where
  | rect (box : Box)
  | poly (pts : List (ℚ × ℚ))
deriving DecidableEq

/-- One entry of `self.seats`. -/
structure Seat where
  id : String
  roi : SeatROI
  label : String
deriving DecidableEq

/-- One entry of the `check_occupancy` result dictionary. -/
structure MatchResult where
  status : String
  max_iou : ℚ
  label : String
  matched_detection : Option Detection
deriving DecidableEq

/-- IoU of a detection against a seat rectangle, in the argument order of
line 200 of `roi_matcher.py`: `calculate_iou(person_bbox, seat_box)`. -/
def detIoU (seatBox : Box) (d : Detection) : ℚ := calculate_iou d.bbox seatBox

/-- Embeds the rectangle branch of the first `check_occupancy` loop (lines
198-207 of `roi_matcher.py`): track the running maximum IoU and stop at the
first detection whose IoU strictly exceeds the threshold.  Returns
`(occupied, max_iou)`. -/
def rectLoop (seatBox : Box) (thr : ℚ) : List Detection → ℚ → Bool × ℚ
  | [], maxIou => (false, maxIou)
  | d :: rest, maxIou =>
    let iou := detIoU seatBox d
    let maxIou' := if maxIou < iou then iou else maxIou
    if thr < iou then (true, maxIou')
    else rectLoop seatBox thr rest maxIou'

/-- Embeds the polygon branch of the first `check_occupancy` loop (lines
185-193 of `roi_matcher.py`): occupied at the first detection whose bottom
center lies in the polygon.  A `point_in_polygon` failure propagates. -/
def polyLoop (pts : List (ℚ × ℚ)) : List Detection → Option Bool
  | [] => some false
  | d :: rest =>
    match point_in_polygon d.bottomCenter pts with
    | none => none
    | some true => some true
    | some false => polyLoop pts rest

/-- Embeds the rectangle branch of the matched-detection loop (lines 220-225
of `roi_matcher.py`): the first detection whose IoU strictly exceeds the
threshold. -/
def rectMatch (seatBox : Box) (thr : ℚ) : List Detection → Option Detection
  | [] => none
  | d :: rest =>
    if thr < detIoU seatBox d then some d
    else rectMatch seatBox thr rest

/-- Embeds the polygon branch of the matched-detection loop (lines 214-219 of
`roi_matcher.py`): the first detection whose bottom center lies in the
polygon.  The outer `Option` propagates `point_in_polygon` failures. -/
def polyMatch (pts : List (ℚ × ℚ)) : List Detection → Option (Option Detection)
  | [] => some none
  | d :: rest =>
    match point_in_polygon d.bottomCenter pts with
    | none => none
    | some true => some (some d)
    | some false => polyMatch pts rest

/-- Per-seat body of `check_occupancy` (lines 174-232 of `roi_matcher.py`):
compute `(occupied, max_iou)` by the first loop, then the matched detection
(only when occupied and the detection list is nonempty), and build the
result entry. -/
def seatOccupancy (thr : ℚ) (dets : List Detection) (seat : Seat) : Option MatchResult :=
  match seat.roi with
  | SeatROI.poly pts =>
    match polyLoop pts dets with
    | none => none
    | some occupied =>
      let maxIou : ℚ := if occupied then 1 else 0
      match (if occupied ∧ dets ≠ [] then polyMatch pts dets else some none) with
      | none => none
      | some matched =>
        some ⟨if occupied then "occupied" else "empty", maxIou, seat.label, matched⟩
  | SeatROI.rect box =>
    let r := rectLoop box thr dets 0
    let matched := if r.1 ∧ dets ≠ [] then rectMatch box thr dets else none
    some ⟨if r.1 then "occupied" else "empty", r.2, seat.label, matched⟩

/-- Embeds `ROIMatcher.check_occupancy` (lines 158-234 of `roi_matcher.py`);
the Python result dictionary, keyed by seat id in insertion order, is
modelled as an association list. -/
def check_occupancy (seats : List Seat) (dets : List Detection) (thr : ℚ) :
    Option (List (String × MatchResult)) :=
  match seats with
  | [] => some []
  | s :: rest =>
    match seatOccupancy thr dets s with
    | none => none
    | some r =>
      match check_occupancy rest dets thr with
      | none => none
      | some rs => some ((s.id, r) :: rs)

/-- The ray-casting loop never fails: inside the y-window guard the two edge
endpoint y-values must differ, so the interpolation denominator is nonzero
and `xinters` is assigned before any read of it. -/
theorem pipLoop_isSome (x y : ℚ) :
    ∀ (edges : List (ℚ × ℚ)) (p1 : ℚ × ℚ) (inside : Bool) (xinters : Option ℚ),
      (pipLoop x y p1 inside xinters edges).isSome := by
  intro edges
  induction edges with
  | nil => intro p1 inside xinters; simp [pipLoop]
  | cons p2 rest ih =>
    intro p1 inside xinters
    obtain ⟨p1x, p1y⟩ := p1
    obtain ⟨p2x, p2y⟩ := p2
    by_cases hg : min p1y p2y < y ∧ y ≤ max p1y p2y ∧ x ≤ max p1x p2x
    · have hne : p1y ≠ p2y := by
        intro he
        rw [he, min_self, max_self] at hg
        exact absurd hg.2.1 (not_le.mpr hg.1)
      have hsub : p2y - p1y ≠ 0 := sub_ne_zero.mpr (Ne.symm hne)
      rw [pipLoop, if_pos hg, if_pos hne, if_neg hsub]
      by_cases hx : p1x = p2x
      · simp only [pipFlip, if_pos hx]
        exact ih _ _ _
      · simp only [pipFlip, if_neg hx]
        exact ih _ _ _
    · rw [pipLoop, if_neg hg]
      exact ih _ _ _

/-- C10: `point_in_polygon` is total on every nonempty polygon — the
interpolated x-coordinate is computed (with a nonzero denominator) before it
is ever read, because the reading branch is only reachable when the edge's
endpoint y-values differ or its endpoint x-values coincide. -/
theorem point_in_polygon_total (point : ℚ × ℚ) (polygon : List (ℚ × ℚ))
    (h : polygon ≠ []) : (point_in_polygon point polygon).isSome := by
  match polygon with
  | [] => exact absurd rfl h
  | p0 :: rest =>
    simp only [point_in_polygon]
    exact pipLoop_isSome point.1 point.2 (rest ++ [p0]) p0 false none

/-- Witness for `point_in_polygon_total` on a concrete square and point. -/
theorem point_in_polygon_total_witness :
    (point_in_polygon (50, 50) [(0, 0), (100, 0), (100, 100), (0, 100)]).isSome :=
  point_in_polygon_total (50, 50) [(0, 0), (100, 0), (100, 100), (0, 100)] (by decide)

/-- With no detections, every seat's result entry is `empty` with score 0 and
no matched detection. -/
theorem seatOccupancy_no_detections (thr : ℚ) (s : Seat) :
    seatOccupancy thr [] s = some ⟨"empty", 0, s.label, none⟩ := by
  match h : s.roi with
  | SeatROI.poly pts => simp [seatOccupancy, h, polyLoop]
  | SeatROI.rect box => simp [seatOccupancy, h, rectLoop]

/-- C4: an empty detection list yields `empty` with score 0 and no matched
detection for every configured zone; an empty zone list yields an empty
result mapping for every detection list. -/
theorem check_occupancy_empty_cases :
    (∀ (seats : List Seat) (thr : ℚ),
        check_occupancy seats [] thr =
          some (seats.map fun s => (s.id, (⟨"empty", 0, s.label, none⟩ : MatchResult)))) ∧
    (∀ (dets : List Detection) (thr : ℚ), check_occupancy [] dets thr = some []) := by
  constructor
  · intro seats thr
    induction seats with
    | nil => rfl
    | cons s rest ih =>
      simp [check_occupancy, seatOccupancy_no_detections, ih]
  · intro dets thr
    rfl

/-- Running maximum of IoUs as maintained by the first rectangle loop
(`if iou > max_iou: max_iou = iou`). -/
def foldMax (seatBox : Box) (acc : ℚ) (dets : List Detection) : ℚ :=
  dets.foldl (fun m d => if m < detIoU seatBox d then detIoU seatBox d else m) acc

/-- Detections whose IoU does not strictly exceed the threshold, i.e. the
ones the rectangle loop passes over without breaking. -/
def belowThr (seatBox : Box) (thr : ℚ) (d : Detection) : Bool :=
  detIoU seatBox d ≤ thr

/-- The head of a `dropWhile` result falsifies the predicate. -/
theorem dropWhile_head_false {α : Type} (p : α → Bool) :
    ∀ (l : List α) (x : α) (xs : List α), l.dropWhile p = x :: xs → p x = false := by
  intro l
  induction l with
  | nil => intro x xs h; simp [List.dropWhile] at h
  | cons a l ih =>
    intro x xs h
    by_cases ha : p a
    · rw [List.dropWhile_cons_of_pos ha] at h
      exact ih _ _ h
    · rw [List.dropWhile_cons_of_neg ha] at h
      obtain ⟨rfl, -⟩ := List.cons.inj h
      exact eq_false_of_ne_true ha

/-- Characterization of the first rectangle loop: it stops at the head of
`dropWhile (belowThr …)` (the first detection whose IoU strictly exceeds the
threshold) and its score is the running maximum over the prefix up to and
including that detection; with no such detection it returns the maximum over
the whole list. -/
theorem rectLoop_spec (box : Box) (thr : ℚ) :
    ∀ (dets : List Detection) (acc : ℚ),
      rectLoop box thr dets acc =
        match dets.dropWhile (belowThr box thr) with
        | [] => (false, foldMax box acc dets)
        | d :: _ => (true, foldMax box acc (dets.takeWhile (belowThr box thr) ++ [d])) := by
  intro dets
  induction dets with
  | nil => intro acc; simp [rectLoop, foldMax]
  | cons d rest ih =>
    intro acc
    by_cases h : thr < detIoU box d
    · have hb : belowThr box thr d = false := by
        simp [belowThr, not_le.mpr h]
      simp only [rectLoop, if_pos h, List.dropWhile_cons, List.takeWhile_cons, hb,
        Bool.false_eq_true, if_false, reduceIte, List.nil_append, foldMax, List.foldl_cons,
        List.foldl_nil]
    · have hb : belowThr box thr d = true := by
        simp [belowThr, not_lt.mp h]
      simp only [rectLoop, if_neg h, List.dropWhile_cons, List.takeWhile_cons, hb,
        if_true, reduceIte]
      rw [ih]
      cases hdrop : rest.dropWhile (belowThr box thr) with
      | nil => simp [foldMax]
      | cons d' rest' => simp [foldMax]

/-- C5: for a rectangle zone, the status is `occupied` exactly when some
detection's IoU strictly exceeds the threshold; the loop stops at the first
such detection and the reported score is the maximum IoU over the detections
examined up to and including it — not necessarily the global maximum. -/
theorem rect_zone_score_spec (sid lbl : String) (box : Box) (thr : ℚ)
    (dets : List Detection) (r : MatchResult)
    (h : seatOccupancy thr dets ⟨sid, SeatROI.rect box, lbl⟩ = some r) :
    (r.status = "occupied" ↔ ∃ d ∈ dets, thr < detIoU box d) ∧
    (∀ d rest, dets.dropWhile (belowThr box thr) = d :: rest →
        r.status = "occupied" ∧
        r.max_iou = foldMax box 0 (dets.takeWhile (belowThr box thr) ++ [d])) ∧
    (dets.dropWhile (belowThr box thr) = [] →
        r.status = "empty" ∧ r.max_iou = foldMax box 0 dets) := by
  simp only [seatOccupancy] at h
  rw [Option.some_inj] at h
  subst h
  rw [rectLoop_spec box thr dets 0]
  cases hdrop : dets.dropWhile (belowThr box thr) with
  | nil =>
    simp only [hdrop]
    refine ⟨?_, fun d rest hcontr => absurd hcontr (by simp), fun _ => by simp⟩
    constructor
    · intro he
      simp at he
    · rintro ⟨d, hd, hiou⟩
      have hb := List.dropWhile_eq_nil_iff.mp hdrop d hd
      simp only [belowThr, decide_eq_true_eq] at hb
      exact absurd hiou (not_lt.mpr hb)
  | cons d0 rest0 =>
    simp only [hdrop]
    have hmem : d0 ∈ dets := by
      have hsub : List.Sublist (dets.dropWhile (belowThr box thr)) dets :=
        List.dropWhile_sublist _
      rw [hdrop] at hsub
      exact hsub.subset (List.mem_cons_self d0 rest0)
    have hiou : thr < detIoU box d0 := by
      have hb := dropWhile_head_false (belowThr box thr) dets d0 rest0 hdrop
      simp only [belowThr, decide_eq_false_iff_not] at hb
      exact not_le.mp hb
    refine ⟨?_, ?_, fun hcontr => absurd hcontr (by simp)⟩
    · constructor
      · intro _
        exact ⟨d0, hmem, hiou⟩
      · intro _
        simp
    · intro d rest heq
      obtain ⟨rfl, -⟩ := List.cons.inj heq
      exact ⟨by simp, rfl⟩

/-- Witness for `rect_zone_score_spec` on the end-to-end scenario: zone
`[100,100,200,200]`, detection `(120,120,180,180,0.9)`, threshold 0.3. -/
theorem rect_zone_score_spec_witness :
    (MatchResult.status ⟨"occupied", 9/25, "A-01", some ⟨120, 120, 180, 180, 9/10⟩⟩ =
        "occupied" ↔
      ∃ d ∈ [(⟨120, 120, 180, 180, 9/10⟩ : Detection)],
        (3/10 : ℚ) < detIoU ⟨100, 100, 200, 200⟩ d) :=
  (rect_zone_score_spec "A-01" "A-01" ⟨100, 100, 200, 200⟩ (3/10)
    [⟨120, 120, 180, 180, 9/10⟩] ⟨"occupied", 9/25, "A-01", some ⟨120, 120, 180, 180, 9/10⟩⟩
    (by norm_num [seatOccupancy, rectLoop, rectMatch, detIoU, calculate_iou,
      Detection.bbox, boxArea, max_def, min_def])).1

/-- The claim "IoU of a box with itself is 1.0 for every box with positive
area" fails on the inverted box `(100,100,0,0)`: its computed area
`(x2-x1)*(y2-y1) = 10000` is positive, yet the separation test fires and the
self-IoU is 0. -/
theorem calculate_iou_self_counterexample :
    0 < boxArea ⟨100, 100, 0, 0⟩ ∧
    calculate_iou ⟨100, 100, 0, 0⟩ ⟨100, 100, 0, 0⟩ = 0 := by
  constructor
  · norm_num [boxArea]
  · norm_num [calculate_iou, max_def, min_def]

/-- C8 (amended): self-IoU is 1 for boxes with positive width and height;
IoU of point-disjoint boxes is 0; the documented concrete IoU value is
`2500/17500 = 1/7`; and a zero-area box yields IoU 0 against any box, in
either argument position. -/
theorem calculate_iou_spec :
    (∀ b : Box, b.x1 < b.x2 → b.y1 < b.y2 → calculate_iou b b = 1) ∧
    (∀ b1 b2 : Box, (∀ p : ℚ × ℚ, ¬ (inBox b1 p ∧ inBox b2 p)) →
        calculate_iou b1 b2 = 0) ∧
    calculate_iou ⟨0, 0, 100, 100⟩ ⟨50, 50, 150, 150⟩ = 1/7 ∧
    (∀ b1 b2 : Box, boxArea b1 = 0 ∨ boxArea b2 = 0 → calculate_iou b1 b2 = 0) := by
  refine ⟨?_, ?_, ?_, ?_⟩
  · intro b hx hy
    have hA : (0:ℚ) < (b.x2 - b.x1) * (b.y2 - b.y1) :=
      mul_pos (by linarith) (by linarith)
    simp only [calculate_iou, boxArea, max_self, min_self]
    rw [if_neg (by push_neg; exact ⟨le_of_lt hx, le_of_lt hy⟩)]
    have hU : (b.x2 - b.x1) * (b.y2 - b.y1) + (b.x2 - b.x1) * (b.y2 - b.y1) -
        (b.x2 - b.x1) * (b.y2 - b.y1) = (b.x2 - b.x1) * (b.y2 - b.y1) := by ring
    rw [hU, if_neg (ne_of_gt hA), div_self (ne_of_gt hA)]
  · intro b1 b2 hdisj
    simp only [calculate_iou]
    by_cases hsep : min b1.x2 b2.x2 < max b1.x1 b2.x1 ∨ min b1.y2 b2.y2 < max b1.y1 b2.y1
    · rw [if_pos hsep]
    · exfalso
      push_neg at hsep
      obtain ⟨hx, hy⟩ := hsep
      exact hdisj (max b1.x1 b2.x1, max b1.y1 b2.y1)
        ⟨⟨le_max_left _ _, le_trans hx (min_le_left _ _),
          le_max_left _ _, le_trans hy (min_le_left _ _)⟩,
         ⟨le_max_right _ _, le_trans hx (min_le_right _ _),
          le_max_right _ _, le_trans hy (min_le_right _ _)⟩⟩
  · norm_num [calculate_iou, boxArea, max_def, min_def]
  · intro b1 b2 hdeg
    simp only [boxArea] at hdeg
    simp only [calculate_iou, boxArea]
    by_cases hsep : min b1.x2 b2.x2 < max b1.x1 b2.x1 ∨ min b1.y2 b2.y2 < max b1.y1 b2.y1
    · rw [if_pos hsep]
    · rw [if_neg hsep]
      push_neg at hsep
      obtain ⟨hx, hy⟩ := hsep
      have hinter : (min b1.x2 b2.x2 - max b1.x1 b2.x1) *
          (min b1.y2 b2.y2 - max b1.y1 b2.y1) = 0 := by
        rcases hdeg with h | h <;> rcases mul_eq_zero.mp h with h0 | h0
        · have e1 : min b1.x2 b2.x2 ≤ max b1.x1 b2.x1 :=
            calc min b1.x2 b2.x2 ≤ b1.x2 := min_le_left _ _
              _ = b1.x1 := sub_eq_zero.mp h0
              _ ≤ max b1.x1 b2.x1 := le_max_left _ _
          rw [show min b1.x2 b2.x2 - max b1.x1 b2.x1 = 0 by linarith, zero_mul]
        · have e1 : min b1.y2 b2.y2 ≤ max b1.y1 b2.y1 :=
            calc min b1.y2 b2.y2 ≤ b1.y2 := min_le_left _ _
              _ = b1.y1 := sub_eq_zero.mp h0
              _ ≤ max b1.y1 b2.y1 := le_max_left _ _
          rw [show min b1.y2 b2.y2 - max b1.y1 b2.y1 = 0 by linarith, mul_zero]
        · have e1 : min b1.x2 b2.x2 ≤ max b1.x1 b2.x1 :=
            calc min b1.x2 b2.x2 ≤ b2.x2 := min_le_right _ _
              _ = b2.x1 := sub_eq_zero.mp h0
              _ ≤ max b1.x1 b2.x1 := le_max_right _ _
          rw [show min b1.x2 b2.x2 - max b1.x1 b2.x1 = 0 by linarith, zero_mul]
        · have e1 : min b1.y2 b2.y2 ≤ max b1.y1 b2.y1 :=
            calc min b1.y2 b2.y2 ≤ b2.y2 := min_le_right _ _
              _ = b2.y1 := sub_eq_zero.mp h0
              _ ≤ max b1.y1 b2.y1 := le_max_right _ _
          rw [show min b1.y2 b2.y2 - max b1.y1 b2.y1 = 0 by linarith, mul_zero]
      rw [hinter]
      split_ifs with hu
      · rfl
      · exact zero_div _

/-- Witness for `calculate_iou_spec` at concrete inputs: self-IoU of a proper
box, and the disjoint pair from the specification. -/
theorem calculate_iou_spec_witness :
    calculate_iou ⟨0, 0, 100, 100⟩ ⟨0, 0, 100, 100⟩ = 1 ∧
    calculate_iou ⟨0, 0, 100, 100⟩ ⟨200, 200, 300, 300⟩ = 0 := by
  constructor
  · exact calculate_iou_spec.1 ⟨0, 0, 100, 100⟩ (by norm_num) (by norm_num)
  · refine calculate_iou_spec.2.1 ⟨0, 0, 100, 100⟩ ⟨200, 200, 300, 300⟩ ?_
    rintro ⟨px, py⟩ ⟨h1, h2⟩
    simp only [inBox] at h1 h2
    linarith [h1.2.1, h2.1]

/-- A detection satisfies a zone's criterion: IoU strictly above the
threshold for rectangle zones, bottom-center polygon containment for polygon
zones. -/
def seatCriterion (thr : ℚ) (roi : SeatROI) (d : Detection) : Prop :=
  match roi with
  | SeatROI.rect box => thr < detIoU box d
  | SeatROI.poly pts => point_in_polygon d.bottomCenter pts = some true

/-- The occupancy flag of the first rectangle loop agrees with the presence
of a matched detection found by the second loop. -/
theorem rectLoop_fst_eq_isSome (box : Box) (thr : ℚ) :
    ∀ (dets : List Detection) (acc : ℚ),
      (rectLoop box thr dets acc).1 = (rectMatch box thr dets).isSome := by
  intro dets
  induction dets with
  | nil => intro acc; simp [rectLoop, rectMatch]
  | cons d rest ih =>
    intro acc
    by_cases h : thr < detIoU box d
    · simp [rectLoop, rectMatch, h]
    · simp only [rectLoop, rectMatch, if_neg h]
      exact ih _

/-- A matched detection of the rectangle loop is the earliest detection in
detector output order whose IoU strictly exceeds the threshold. -/
theorem rectMatch_eq_some (box : Box) (thr : ℚ) :
    ∀ (dets : List Detection) (d : Detection), rectMatch box thr dets = some d →
      ∃ pre post, dets = pre ++ d :: post ∧ thr < detIoU box d ∧
        ∀ d' ∈ pre, ¬ thr < detIoU box d' := by
  intro dets
  induction dets with
  | nil => intro d h; simp [rectMatch] at h
  | cons a rest ih =>
    intro d h
    by_cases ha : thr < detIoU box a
    · rw [rectMatch, if_pos ha, Option.some_inj] at h
      subst h
      exact ⟨[], rest, rfl, ha, by simp⟩
    · rw [rectMatch, if_neg ha] at h
      obtain ⟨pre, post, rfl, hd, hpre⟩ := ih d h
      refine ⟨a :: pre, post, rfl, hd, ?_⟩
      intro d' hd'
      rcases List.mem_cons.mp hd' with rfl | hmem
      · exact ha
      · exact hpre d' hmem

/-- The two polygon loops scan the same detections with the same containment
test, so the occupancy flag is the presence of a matched detection. -/
theorem polyLoop_eq_polyMatch_map (pts : List (ℚ × ℚ)) :
    ∀ dets : List Detection,
      polyLoop pts dets = (polyMatch pts dets).map (fun m => m.isSome) := by
  intro dets
  induction dets with
  | nil => simp [polyLoop, polyMatch]
  | cons d rest ih =>
    rw [polyLoop, polyMatch]
    match point_in_polygon d.bottomCenter pts with
    | none => rfl
    | some true => rfl
    | some false => exact ih

/-- A matched detection of the polygon loop is the earliest detection in
detector output order whose bottom center lies in the polygon. -/
theorem polyMatch_eq_some (pts : List (ℚ × ℚ)) :
    ∀ (dets : List Detection) (d : Detection),
      polyMatch pts dets = some (some d) →
      ∃ pre post, dets = pre ++ d :: post ∧
        point_in_polygon d.bottomCenter pts = some true ∧
        ∀ d' ∈ pre, ¬ point_in_polygon d'.bottomCenter pts = some true := by
  intro dets
  induction dets with
  | nil => intro d h; simp [polyMatch] at h
  | cons a rest ih =>
    intro d h
    rw [polyMatch] at h
    match hpip : point_in_polygon a.bottomCenter pts, h with
    | some true, h =>
      have h' : some (some a) = some (some d) := h
      simp only [Option.some_inj] at h'
      subst h'
      exact ⟨[], rest, rfl, hpip, by simp⟩
    | some false, h =>
      have h' : polyMatch pts rest = some (some d) := h
      obtain ⟨pre, post, rfl, hd, hpre⟩ := ih d h'
      refine ⟨a :: pre, post, rfl, hd, ?_⟩
      intro d' hd'
      rcases List.mem_cons.mp hd' with rfl | hmem
      · rw [hpip]; simp
      · exact hpre d' hmem

/-- C9: in every `check_occupancy` result entry the status is `occupied` iff
a matched detection is present, and the matched detection is the earliest
detection in detector output order that satisfies the zone's criterion. -/
theorem matched_detection_invariant (thr : ℚ) (dets : List Detection) (seat : Seat)
    (r : MatchResult) (h : seatOccupancy thr dets seat = some r) :
    (r.status = "occupied" ↔ r.matched_detection.isSome = true) ∧
    (∀ d, r.matched_detection = some d →
        ∃ pre post, dets = pre ++ d :: post ∧ seatCriterion thr seat.roi d ∧
          ∀ d' ∈ pre, ¬ seatCriterion thr seat.roi d') := by
  cases hroi : seat.roi with
  | rect box =>
    simp only [seatOccupancy, hroi] at h
    rw [Option.some_inj] at h
    subst h
    simp only [hroi, seatCriterion]
    cases hocc : (rectLoop box thr dets 0).1 with
    | false =>
      simp only [hocc, Bool.false_eq_true, if_false, false_and]
      refine ⟨by simp, ?_⟩
      intro d hd
      simp at hd
    | true =>
      have hnil : dets ≠ [] := by
        intro hd
        rw [hd] at hocc
        simp [rectLoop] at hocc
      have hmt : (rectMatch box thr dets).isSome = true := by
        rw [← rectLoop_fst_eq_isSome box thr dets 0]
        exact hocc
      simp only [hocc, if_true, true_and, if_pos hnil]
      refine ⟨by simp [hmt], ?_⟩
      intro d hd
      obtain ⟨pre, post, heq, hcrit, hpre⟩ := rectMatch_eq_some box thr dets d hd
      exact ⟨pre, post, heq, hcrit, hpre⟩
  | poly pts =>
    simp only [seatOccupancy, hroi] at h
    simp only [hroi, seatCriterion]
    cases hpl : polyLoop pts dets with
    | none =>
      rw [hpl] at h
      simp at h
    | some occupied =>
      rw [hpl] at h
      cases occupied with
      | false =>
        have h' : some (⟨"empty", 0, seat.label, none⟩ : MatchResult) = some r := by
          simpa using h
        rw [Option.some_inj] at h'
        subst h'
        refine ⟨by simp, ?_⟩
        intro d hd
        simp at hd
      | true =>
        have hnil : dets ≠ [] := by
          intro hd
          rw [hd] at hpl
          simp [polyLoop] at hpl
        have hpm := polyLoop_eq_polyMatch_map pts dets
        rw [hpl] at hpm
        cases hm : polyMatch pts dets with
        | none =>
          rw [hm] at hpm
          simp at hpm
        | some m =>
          rw [hm] at hpm
          simp only [Option.map_some'] at hpm
          rw [Option.some_inj] at hpm
          cases m with
          | none => simp at hpm
          | some d0 =>
            have h' : some (⟨"occupied", 1, seat.label, some d0⟩ : MatchResult) = some r := by
              simpa only [hm, ne_eq, hnil, not_false_iff, and_true, if_true] using h
            rw [Option.some_inj] at h'
            subst h'
            refine ⟨by simp, ?_⟩
            intro d hd
            simp only [Option.some_inj] at hd
            subst hd
            exact polyMatch_eq_some pts dets d0 hm

/-- Witness for `matched_detection_invariant` on the spec's polygon scenario:
square zone `[[0,0],[100,0],[100,100],[0,100]]` and a detection whose bottom
center is `(50,50)`. -/
theorem matched_detection_invariant_witness :
    ((MatchResult.status ⟨"occupied", 1, "A-01", some ⟨0, 0, 100, 50, 9/10⟩⟩ = "occupied") ↔
      (Option.isSome (some (⟨0, 0, 100, 50, 9/10⟩ : Detection)) = true)) :=
  (matched_detection_invariant (3/10) [⟨0, 0, 100, 50, 9/10⟩]
    ⟨"A-01", SeatROI.poly [(0, 0), (100, 0), (100, 100), (0, 100)], "A-01"⟩
    ⟨"occupied", 1, "A-01", some ⟨0, 0, 100, 50, 9/10⟩⟩
    (by norm_num [seatOccupancy, polyLoop, polyMatch, point_in_polygon, pipLoop, pipFlip,
      Detection.bottomCenter, max_def, min_def])).1

/-! ## ZoneRepository (`seat_repository.py`, `SeatRepository.get_seats_by_channel`) -/

/-- Cache TTL in seconds (`_cache_ttl = 60`). -/
def cache_ttl : ℚ := 60

/-- Observable outcome of one `get_seats_by_channel` call: the returned zone
list, whether the primary (Supabase) fetch was attempted, and the cache entry
and local snapshot after the call. -/
structure RepoResult (α : Type) where
  data : List α
  fetchAttempted : Bool
  cache : Option (List α × ℚ)
  snapshot : Option (List α)
deriving DecidableEq

/-- The fetch-and-fallback phase of `get_seats_by_channel` (lines 69-105 of
`seat_repository.py`), reached when there is no fresh cache hit.  `fetch` is
`some d` when the Supabase query succeeds with rows `d` (possibly empty) and
`none` when it raises.  On success the cache entry is refreshed and the local
snapshot is written through only when the data is nonempty (`if data:`); on
failure an existing (stale) cache entry is returned as-is, else the local
snapshot's contents (empty when absent). -/
def fetchPhase {α : Type} (cache : Option (List α × ℚ)) (snapshot : Option (List α))
    (now : ℚ) (fetch : Option (List α)) : RepoResult α :=
  match fetch with
  | some d =>
    ⟨d, true, some (d, now), if d.isEmpty then snapshot else some d⟩
  | none =>
    match cache with
    | some (entry, ts) => ⟨entry, true, some (entry, ts), snapshot⟩
    | none => ⟨(snapshot.getD []), true, none, snapshot⟩

/-- Embeds `SeatRepository.get_seats_by_channel` (lines 46-105 of
`seat_repository.py`): a cache entry younger than the TTL is returned without
attempting the primary fetch; otherwise the fetch phase runs. -/
def get_seats_by_channel {α : Type} (cache : Option (List α × ℚ))
    (snapshot : Option (List α)) (now : ℚ) (fetch : Option (List α)) : RepoResult α :=
  match cache with
  | some (entry, ts) =>
    if now - ts < cache_ttl then ⟨entry, false, some (entry, ts), snapshot⟩
    else fetchPhase (some (entry, ts)) snapshot now fetch
  | none => fetchPhase none snapshot now fetch

/-- The claim "returns an empty list only when all fallback tiers are
exhausted" fails: with no cache entry, a successful primary fetch returning
zero rows, and a nonempty local snapshot, the call returns the empty list
even though the snapshot tier still holds data. -/
theorem zone_repository_empty_counterexample :
    (get_seats_by_channel (α := ℕ) none (some [7]) 0 (some [])).data = [] ∧
    (get_seats_by_channel (α := ℕ) none (some [7]) 0 (some [])).snapshot = some [7] ∧
    ([7] : List ℕ) ≠ [] := by
  refine ⟨rfl, rfl, by decide⟩

/-- C3 (amended): `get_seats_by_channel` is total (never raises), follows the
strict tier order — a fresh cache entry is returned without any primary
fetch; on primary-fetch failure an existing (even expired) cache entry is
returned as-is; with no cache entry and a failed primary fetch the local
snapshot's contents are returned — and returns an empty list only when the
tier that serves the request itself holds no zones (all tiers exhausted, or
an empty cached/fetched row set). -/
theorem zone_repository_tier_order {α : Type} (cache : Option (List α × ℚ))
    (snapshot : Option (List α)) (now : ℚ) (fetch : Option (List α)) :
    (∀ entry ts, cache = some (entry, ts) → now - ts < cache_ttl →
        get_seats_by_channel cache snapshot now fetch =
          ⟨entry, false, some (entry, ts), snapshot⟩) ∧
    (∀ entry ts, cache = some (entry, ts) → ¬ now - ts < cache_ttl → fetch = none →
        (get_seats_by_channel cache snapshot now fetch).data = entry ∧
        (get_seats_by_channel cache snapshot now fetch).fetchAttempted = true) ∧
    (cache = none → fetch = none →
        (get_seats_by_channel cache snapshot now fetch).data = snapshot.getD [] ∧
        (get_seats_by_channel cache snapshot now fetch).fetchAttempted = true) ∧
    ((get_seats_by_channel cache snapshot now fetch).data = [] →
        (∃ ts, cache = some ([], ts)) ∨ fetch = some [] ∨
          (cache = none ∧ fetch = none ∧ snapshot.getD [] = [])) := by
  refine ⟨?_, ?_, ?_, ?_⟩
  · rintro entry ts rfl hfresh
    simp [get_seats_by_channel, hfresh]
  · rintro entry ts rfl hstale rfl
    simp [get_seats_by_channel, hstale, fetchPhase]
  · rintro rfl rfl
    simp [get_seats_by_channel, fetchPhase]
  · intro hempty
    match hc : cache with
    | some (entry, ts) =>
      simp only [get_seats_by_channel] at hempty
      by_cases hfresh : now - ts < cache_ttl
      · rw [if_pos hfresh] at hempty
        exact Or.inl ⟨ts, by rw [← hempty]⟩
      · rw [if_neg hfresh] at hempty
        match hf : fetch with
        | some d =>
          simp only [fetchPhase] at hempty
          exact Or.inr (Or.inl (by rw [hempty]))
        | none =>
          simp only [fetchPhase] at hempty
          exact Or.inl ⟨ts, by rw [← hempty]⟩
    | none =>
      simp only [get_seats_by_channel] at hempty
      match hf : fetch with
      | some d =>
        simp only [fetchPhase] at hempty
        exact Or.inr (Or.inl (by rw [hempty]))
      | none =>
        simp only [fetchPhase] at hempty
        exact Or.inr (Or.inr ⟨rfl, rfl, hempty⟩)

/-- Witness for `zone_repository_tier_order`: a fresh cache entry is served
without a fetch even when the primary backend would fail. -/
theorem zone_repository_tier_order_witness :
    get_seats_by_channel (α := ℕ) (some ([5], 0)) none 30 none =
      ⟨[5], false, some ([5], 0), none⟩ :=
  (zone_repository_tier_order (some ([5], 0)) none 30 none).1 [5] 0 rfl (by norm_num [cache_ttl])

/-! ## DetectionLogger (`detection_logger.py`) -/

/-- Batch size configured by `create_detection_logger` (`batch_size=10`). -/
def batch_size : ℕ := 10

/-- Flush interval configured by `create_detection_logger`
(`flush_interval=5.0` seconds). -/
def flush_interval : ℚ := 5

/-- Mutable state of a `DetectionLogger`: the pending batch, the last flush
time, and the statistics counters. -/
structure LoggerState (α : Type) where
  batch : List α
  lastFlush : ℚ
  totalLogged : ℕ
  batchInserts : ℕ
  errors : ℕ
deriving DecidableEq

/-- Embeds `DetectionLogger._flush_batch` (lines 238-255 of
`detection_logger.py`).  `insertOk` is the outcome of the bulk database
insert; the second component is the list submitted in the single bulk insert
call (`none` when no insert was attempted).  On failure the copied batch is
dropped, the error counter is incremented, and no exception escapes. -/
def flush_batch {α : Type} (s : LoggerState α) (now : ℚ) (insertOk : Bool) :
    LoggerState α × Option (List α) :=
  if s.batch.isEmpty then (s, none)
  else
    let toInsert := s.batch
    let s1 : LoggerState α := { s with batch := [], lastFlush := now }
    if insertOk then
      ({ s1 with totalLogged := s1.totalLogged + toInsert.length,
                 batchInserts := s1.batchInserts + 1 }, some toInsert)
    else
      ({ s1 with errors := s1.errors + 1 }, some toInsert)

/-- Embeds `DetectionLogger._add_to_batch` (lines 224-236 of
`detection_logger.py`): append the event, then flush when the batch has
reached the configured size or the configured interval has elapsed since the
last flush. -/
def add_to_batch {α : Type} (s : LoggerState α) (e : α) (now : ℚ) (insertOk : Bool) :
    LoggerState α × Option (List α) :=
  let s' : LoggerState α := { s with batch := s.batch ++ [e] }
  if batch_size ≤ s'.batch.length ∨ flush_interval ≤ now - s.lastFlush then
    flush_batch s' now insertOk
  else (s', none)

/-- Embeds `DetectionLogger._insert_single` (lines 257-264 of
`detection_logger.py`): one immediate insert of the given event; failures
only bump the error counter.  The second component is the event submitted to
the database. -/
def insert_single {α : Type} (s : LoggerState α) (e : α) (insertOk : Bool) :
    LoggerState α × α :=
  if insertOk then ({ s with totalLogged := s.totalLogged + 1 }, e)
  else ({ s with errors := s.errors + 1 }, e)

/-- Embeds `DetectionLogger.log_status_change` (lines 112-156 of
`detection_logger.py`): the built event is written individually and
immediately via `_insert_single`, never queued. -/
def log_status_change {α : Type} (s : LoggerState α) (e : α) (insertOk : Bool) :
    LoggerState α × α :=
  insert_single s e insertOk

/-- C6: an appended telemetry event triggers a flush exactly when the batch
reaches size 10 or 5 seconds have elapsed since the last flush; a flush
submits the whole queue in one bulk insert; on flush failure the queue is
dropped (nothing re-queued), the error counter is incremented, and the call
still returns; status-change events go through the immediate single-insert
path and never touch the batch queue. -/
theorem event_logger_batch_spec {α : Type} (s : LoggerState α) (e : α) (now : ℚ)
    (ok : Bool) :
    ((add_to_batch s e now ok).2 ≠ none ↔
        (10 ≤ (s.batch ++ [e]).length ∨ 5 ≤ now - s.lastFlush)) ∧
    ((add_to_batch s e now ok).2 = none ∨
        (add_to_batch s e now ok).2 = some (s.batch ++ [e])) ∧
    (ok = false → (add_to_batch s e now ok).2 ≠ none →
        (add_to_batch s e now ok).1.batch = [] ∧
        (add_to_batch s e now ok).1.errors = s.errors + 1 ∧
        (add_to_batch s e now ok).1.totalLogged = s.totalLogged ∧
        (add_to_batch s e now ok).1.batchInserts = s.batchInserts) ∧
    (∀ ok' : Bool,
        (log_status_change s e ok').1.batch = s.batch ∧
        (log_status_change s e ok').1.lastFlush = s.lastFlush ∧
        (log_status_change s e ok').2 = e ∧
        (ok' = true → (log_status_change s e ok').1.totalLogged = s.totalLogged + 1) ∧
        (ok' = false → (log_status_change s e ok').1.errors = s.errors + 1)) := by
  have hne : (s.batch ++ [e]).isEmpty = false := by
    simp
  by_cases hcond : batch_size ≤ s.batch.length + 1 ∨ flush_interval ≤ now - s.lastFlush
  · refine ⟨?_, ?_, ?_, ?_⟩
    · constructor
      · intro _
        simpa [batch_size, flush_interval] using hcond
      · intro _
        cases ok <;> simp [add_to_batch, flush_batch, hcond, hne]
    · cases ok <;> simp [add_to_batch, flush_batch, hcond, hne]
    · rintro rfl -
      simp [add_to_batch, flush_batch, hcond, hne]
    · intro ok'
      cases ok' <;> simp [log_status_change, insert_single]
  · refine ⟨?_, ?_, ?_, ?_⟩
    · constructor
      · intro hcontr
        exact absurd (by simp [add_to_batch, hcond]) hcontr
      · intro hc
        exact absurd (by simpa [batch_size, flush_interval] using hc) hcond
    · left
      simp [add_to_batch, hcond]
    · rintro rfl hcontr
      exact absurd (by simp [add_to_batch, hcond]) hcontr
    · intro ok'
      cases ok' <;> simp [log_status_change, insert_single]

/-- Witness for `event_logger_batch_spec`: a failing flush triggered by the
elapsed interval drops the queue and counts one error. -/
theorem event_logger_batch_spec_witness :
    (add_to_batch (⟨[], 0, 0, 0, 0⟩ : LoggerState ℕ) 42 5 false).1.batch = [] ∧
    (add_to_batch (⟨[], 0, 0, 0, 0⟩ : LoggerState ℕ) 42 5 false).1.errors = 0 + 1 ∧
    (add_to_batch (⟨[], 0, 0, 0, 0⟩ : LoggerState ℕ) 42 5 false).1.totalLogged = 0 ∧
    (add_to_batch (⟨[], 0, 0, 0, 0⟩ : LoggerState ℕ) 42 5 false).1.batchInserts = 0 :=
  (event_logger_batch_spec (⟨[], 0, 0, 0, 0⟩ : LoggerState ℕ) 42 5 false).2.2.1 rfl
    (by norm_num [add_to_batch, flush_batch, batch_size, flush_interval]; simp)

end AndingCCTV
